import Mathlib

/-!
Verification of the ember-cli excerpt: the `create-and-step-into-directory`
task (src/lib/tasks/create-and-step-into-directory.js) and the build
orchestrator hook pipeline (specified in the design document; exercised by
src/tests/unit/models/builder-test.js).
-/

namespace CreateDir

/-- Errors surfaced by the task.  `silent` embeds `SilentError` (a
user-facing message-only error with suppressed stack trace); `fsError`
embeds a Node filesystem error carrying its `code` string (e.g. "EEXIST"). -/
inductive JsError where
  | silent (message : String)
  | fsError (code : String)
deriving Repr, DecidableEq

/-- The filesystem, as far as the task observes it: a list of existing
directories, each with the number of entries `fs.readdirSync` would return. -/
structure Fs where
  dirs : List (String × Nat)
deriving Repr, DecidableEq

/-- `existsSync(d)` from the source: does directory `d` exist. -/
def existsSync (fs : Fs) (d : String) : Bool :=
  (fs.dirs.lookup d).isSome

/-- `fs.readdirSync(d).length` from the source: entry count of `d`
(the source only calls it on directories known to exist). -/
def readdirLength (fs : Fs) (d : String) : Nat :=
  (fs.dirs.lookup d).getD 0

/-- Process state the task reads and mutates: the filesystem and the
process working directory (`process.cwd()` / `process.chdir`). -/
structure TaskState where
  fs : Fs
  cwd : String
deriving Repr, DecidableEq

/-- `warnDirectoryAlreadyExists` from the source: builds the SilentError
with the message about `directoryName`. -/
def warnDirectoryAlreadyExists (directoryName : String) : JsError :=
  JsError.silent ("Directory \x27" ++ directoryName ++ "\x27 already exists.")

/-- `fs.mkdir(d)`: fails with code "EEXIST" when `d` exists, otherwise
creates `d` empty. -/
def mkdir (fs : Fs) (d : String) : Except JsError Fs :=
  if existsSync fs d then Except.error (JsError.fsError "EEXIST")
  else Except.ok ⟨(d, 0) :: fs.dirs⟩

/-- The `.catch` handler inside `run`: on `err.code === "EEXIST"` allow an
empty existing directory to be reused, on a non-empty one throw the
SilentError; any other error is rethrown unchanged. -/
def catchMkdirError (fs : Fs) (directoryName : String) (err : JsError) :
    Except JsError Fs :=
  match err with
  | JsError.fsError c =>
      if c = "EEXIST" then
        if readdirLength fs directoryName != 0 then
          Except.error (warnDirectoryAlreadyExists directoryName)
        else
          Except.ok fs
      else
        Except.error (JsError.fsError c)
  | e => Except.error e

/-- `CreateTask.run(options)` from the source, parameterised over the
injected `mkdir` capability `mk` (so that arbitrary creation failures can
be considered, as the real `fs.mkdir` may produce).  Result: on rejection
the error; on resolution the final process state paired with the resolved
value (`some cwd` models `\x7b initialDirectory: cwd \x7d`, `none` models the
`undefined` the dry-run resolves with).  An error outcome carries no new
state: `process.chdir` only happens in the success continuation. -/
def runWith (mk : Fs → String → Except JsError Fs) (st : TaskState)
    (directoryName : String) (dryRun : Bool) :
    Except JsError (TaskState × Option String) :=
  if dryRun then
    if existsSync st.fs directoryName && (readdirLength st.fs directoryName != 0) then
      Except.error (warnDirectoryAlreadyExists directoryName)
    else
      Except.ok (st, none)
  else
    let afterMkdir : Except JsError Fs :=
      match mk st.fs directoryName with
      | Except.ok fs2 => Except.ok fs2
      | Except.error err => catchMkdirError st.fs directoryName err
    match afterMkdir with
    | Except.error e => Except.error e
    | Except.ok fs2 =>
        Except.ok ({ fs := fs2, cwd := directoryName }, some st.cwd)

/-- `CreateTask.run` with the real `mkdir` semantics. -/
def run (st : TaskState) (directoryName : String) (dryRun : Bool) :
    Except JsError (TaskState × Option String) :=
  runWith mkdir st directoryName dryRun

/-- The error component of a task outcome (`none` when it resolved). -/
def errorOf {α : Type} : Except JsError α → Option JsError
  | Except.error e => some e
  | Except.ok _ => none

end CreateDir

namespace Builder

deriving instance DecidableEq for Except

/-- Modelled from the spec: the build orchestrator of `lib/models/builder.js`
is not part of this excerpt (only its unit tests are), so the hook pipeline
is modelled from the design document, section 4.2.  An `Addon` exposes zero
or more lifecycle hooks; a hook that is present either resolves or rejects
with an error (errors and build results are opaque, modelled as strings).
`buildError` is only ever reported to, so only its presence matters. -/
structure Addon where
  preBuild : Option (Except String Unit)
  postBuild : Option (Except String Unit)
  outputReady : Option (Except String Unit)
  buildError : Bool
deriving Repr, DecidableEq

/-- Modelled from the spec: section 4.2 collaborators of the missing
`lib/models/builder.js` — the ordered addon list, the external build
engine outcome, and the injected result-processing transform. -/
structure BuilderConfig where
  addons : List Addon
  engineBuild : Except String String
  process : String → Except String String

/-- One observable step of a build: each hook invocation (with the addon
index in the registration order and, where applicable, its argument), the
build engine call, the result-processing call, and the instrumentation
operations. -/
inductive BuildEvent where
  | start (label : String)
  | preBuild (i : Nat)
  | engineBuild
  | postBuild (i : Nat) (result : String)
  | processResult (result : String)
  | outputReady (i : Nat) (result : String)
  | buildError (i : Nat) (err : String)
  | stopAndReport (label : String) (result : String) (ann : String)
deriving Repr, DecidableEq

/-- Pair each addon with its position in the registration order,
starting at `n`. -/
def withIdx (n : Nat) : List Addon → List (Nat × Addon)
  | [] => []
  | a :: rest => (n, a) :: withIdx (n + 1) rest

/-- Modelled from the spec: one hook phase of the missing orchestrator —
invoke the hook selected by `get` on every addon that defines it,
sequentially in registration order; a rejection halts the phase at once.
Returns the events of the phase and the first rejection, if any. -/
def processHooks (get : Addon → Option (Except String Unit))
    (mk : Nat → BuildEvent) :
    List (Nat × Addon) → List BuildEvent × Option String
  | [] => ([], none)
  | (i, a) :: rest =>
    match get a with
    | none => processHooks get mk rest
    | some (Except.ok _) =>
        let r := processHooks get mk rest
        (mk i :: r.1, r.2)
    | some (Except.error e) => ([mk i], some e)

/-- The events a fully successful hook phase emits: one per addon that
defines the hook, in registration order. -/
def hookEvents (get : Addon → Option (Except String Unit))
    (mk : Nat → BuildEvent) : List (Nat × Addon) → List BuildEvent
  | [] => []
  | (i, a) :: rest =>
    if (get a).isSome then mk i :: hookEvents get mk rest
    else hookEvents get mk rest

/-- Modelled from the spec: the failure fan-out of the missing orchestrator
(step 6) — report `e` to the `buildError` hook of every addon that defines
it, in registration order. -/
def buildErrorEvents (e : String) : List (Nat × Addon) → List BuildEvent
  | [] => []
  | (i, a) :: rest =>
      if a.buildError then BuildEvent.buildError i e :: buildErrorEvents e rest
      else buildErrorEvents e rest

/-- The preBuild phase of a build (step 2). -/
def preHooks (cfg : BuilderConfig) : List BuildEvent × Option String :=
  processHooks (fun a => a.preBuild) (fun i => BuildEvent.preBuild i)
    (withIdx 0 cfg.addons)

/-- The postBuild phase of a build (step 4), over the engine result. -/
def postHooks (cfg : BuilderConfig) (res : String) :
    List BuildEvent × Option String :=
  processHooks (fun a => a.postBuild) (fun i => BuildEvent.postBuild i res)
    (withIdx 0 cfg.addons)

/-- The outputReady phase of a build (step 5), over the processed result. -/
def outHooks (cfg : BuilderConfig) (res2 : String) :
    List BuildEvent × Option String :=
  processHooks (fun a => a.outputReady) (fun i => BuildEvent.outputReady i res2)
    (withIdx 0 cfg.addons)

/-- Modelled from the spec: steps 2–6 of the missing orchestrator, after
instrumentation start — preBuild phase, engine build, postBuild phase,
result processing, outputReady phase; on any rejection skip to the
buildError fan-out and re-raise the error; on success stop instrumentation
with the final result and the given annotation and resolve with it. -/
def buildSteps (cfg : BuilderConfig) (ann : String) :
    List BuildEvent × Except String String :=
  match (preHooks cfg).2 with
  | some e =>
      ((preHooks cfg).1 ++ buildErrorEvents e (withIdx 0 cfg.addons),
        Except.error e)
  | none =>
    match cfg.engineBuild with
    | Except.error e =>
        ((preHooks cfg).1 ++ [BuildEvent.engineBuild] ++
            buildErrorEvents e (withIdx 0 cfg.addons),
          Except.error e)
    | Except.ok res =>
      match (postHooks cfg res).2 with
      | some e =>
          ((preHooks cfg).1 ++ [BuildEvent.engineBuild] ++ (postHooks cfg res).1 ++
              buildErrorEvents e (withIdx 0 cfg.addons),
            Except.error e)
      | none =>
        match cfg.process res with
        | Except.error e =>
            ((preHooks cfg).1 ++ [BuildEvent.engineBuild] ++ (postHooks cfg res).1 ++
                [BuildEvent.processResult res] ++
                buildErrorEvents e (withIdx 0 cfg.addons),
              Except.error e)
        | Except.ok res2 =>
          match (outHooks cfg res2).2 with
          | some e =>
              ((preHooks cfg).1 ++ [BuildEvent.engineBuild] ++ (postHooks cfg res).1 ++
                  [BuildEvent.processResult res] ++ (outHooks cfg res2).1 ++
                  buildErrorEvents e (withIdx 0 cfg.addons),
                Except.error e)
          | none =>
              ((preHooks cfg).1 ++ [BuildEvent.engineBuild] ++ (postHooks cfg res).1 ++
                  [BuildEvent.processResult res] ++ (outHooks cfg res2).1 ++
                  [BuildEvent.stopAndReport "build" res2 ann],
                Except.ok res2)

/-- Modelled from the spec: `build(updatedFiles?, ann?)` of the missing
orchestrator — step 1 starts instrumentation under the label "build",
then the hook pipeline runs.  Returns the full event trace and the
settled outcome of the returned promise. -/
def buildTrace (cfg : BuilderConfig) (ann : String) :
    List BuildEvent × Except String String :=
  ((BuildEvent.start "build") :: (buildSteps cfg ann).1, (buildSteps cfg ann).2)

/-- Whether a hook value, when present, resolves (an absent hook
trivially succeeds). -/
def succeeds : Option (Except String Unit) → Bool
  | some (Except.error _) => false
  | _ => true

/-- Recogniser for instrumentation stop events. -/
def isStop : BuildEvent → Bool
  | BuildEvent.stopAndReport _ _ _ => true
  | _ => false

/-- Recogniser for instrumentation start events. -/
def isStart : BuildEvent → Bool
  | BuildEvent.start _ => true
  | _ => false

/-- A test addon defining every hook, all resolving (as in the
"hooks are called in the right order" unit test). -/
def okAddon : Addon :=
  ⟨some (Except.ok ()), some (Except.ok ()), some (Except.ok ()), true⟩

/-- A test addon whose preBuild rejects (as in the
"calls buildError ... when preBuild fails" unit test). -/
def badPreAddon : Addon :=
  ⟨some (Except.error "preBuild Error"), some (Except.ok ()),
    some (Except.ok ()), true⟩

/-- A configuration where every hook and the engine succeed. -/
def cfgAll : BuilderConfig :=
  ⟨[okAddon, okAddon], Except.ok "build results", fun s => Except.ok s⟩

/-- A configuration whose build engine rejects. -/
def cfgEngineFail : BuilderConfig :=
  ⟨[okAddon, okAddon], Except.error "build Error", fun s => Except.ok s⟩

/-- A configuration whose first addon rejects in preBuild. -/
def cfgPreFail : BuilderConfig :=
  ⟨[badPreAddon, okAddon], Except.ok "build results", fun s => Except.ok s⟩

end Builder

namespace CreateDir

/-- C4: in non-dry-run mode, when `d` does not exist `run` creates it,
changes the working directory into `d` and resolves with the previous
working directory; when `d` exists and is empty `run` likewise succeeds,
creating nothing new, and changes into `d`. -/
theorem run_creates_and_steps_into (st : TaskState) (d : String)
    (h : existsSync st.fs d = false ∨
      (existsSync st.fs d = true ∧ readdirLength st.fs d = 0)) :
    ∃ fs2 : Fs,
      run st d false = Except.ok ({ fs := fs2, cwd := d }, some st.cwd) ∧
      existsSync fs2 d = true ∧
      (existsSync st.fs d = true → fs2 = st.fs) := by
  rcases h with h1 | ⟨h1, h2⟩
  · refine ⟨⟨(d, 0) :: st.fs.dirs⟩, ?_, ?_, ?_⟩
    · simp [run, runWith, mkdir, h1]
    · simp [existsSync, List.lookup]
    · intro hc
      rw [hc] at h1
      cases h1
  · refine ⟨st.fs, ?_, h1, fun _ => rfl⟩
    simp [run, runWith, mkdir, catchMkdirError, h1, h2]

/-- C4 witness: a concrete run on a fresh directory name. -/
theorem run_creates_and_steps_into_witness :
    (existsSync (Fs.mk []) "new" = false ∨
      (existsSync (Fs.mk []) "new" = true ∧ readdirLength (Fs.mk []) "new" = 0)) ∧
    ∃ fs2 : Fs,
      run ⟨⟨[]⟩, "home"⟩ "new" false = Except.ok ({ fs := fs2, cwd := "new" }, some "home") ∧
      existsSync fs2 "new" = true ∧
      (existsSync (Fs.mk []) "new" = true → fs2 = ⟨[]⟩) :=
  ⟨Or.inl rfl, run_creates_and_steps_into ⟨⟨[]⟩, "home"⟩ "new" (Or.inl rfl)⟩

/-- C5: in non-dry-run mode, when `d` exists and is non-empty, `run` fails
with the distinguished SilentError (message-only) and performs no state
change; and any creation failure whose code is not "EEXIST" propagates to
the caller unchanged. -/
theorem run_exists_nonempty_fails (st : TaskState) (d : String)
    (h1 : existsSync st.fs d = true) (h2 : readdirLength st.fs d ≠ 0) :
    run st d false = Except.error (warnDirectoryAlreadyExists d) ∧
    ∀ c : String, c ≠ "EEXIST" →
      runWith (fun _ _ => Except.error (JsError.fsError c)) st d false =
        Except.error (JsError.fsError c) := by
  constructor
  · simp [run, runWith, mkdir, catchMkdirError, h1, h2]
  · intro c hc
    simp [runWith, catchMkdirError, hc]

/-- C5 witness: a concrete run on an existing non-empty directory. -/
theorem run_exists_nonempty_fails_witness :
    (existsSync (Fs.mk [("proj", 2)]) "proj" = true ∧
      readdirLength (Fs.mk [("proj", 2)]) "proj" ≠ 0) ∧
    (run ⟨⟨[("proj", 2)]⟩, "home"⟩ "proj" false =
        Except.error (warnDirectoryAlreadyExists "proj") ∧
      ∀ c : String, c ≠ "EEXIST" →
        runWith (fun _ _ => Except.error (JsError.fsError c))
            ⟨⟨[("proj", 2)]⟩, "home"⟩ "proj" false =
          Except.error (JsError.fsError c)) :=
  ⟨⟨by decide, by decide⟩,
    run_exists_nonempty_fails ⟨⟨[("proj", 2)]⟩, "home"⟩ "proj" (by decide) (by decide)⟩

/-- C6: for every state and directory name, the dry-run resolves exactly
when the non-dry-run resolves and fails exactly when it fails, with the
same error. -/
theorem dryRun_same_outcome (st : TaskState) (d : String) :
    errorOf (run st d true) = errorOf (run st d false) := by
  by_cases h1 : existsSync st.fs d = true
  · by_cases h2 : readdirLength st.fs d = 0
    · simp [run, runWith, mkdir, catchMkdirError, errorOf, h1, h2]
    · simp [run, runWith, mkdir, catchMkdirError, errorOf, h1, h2]
  · simp [run, runWith, mkdir, catchMkdirError, errorOf, h1]

/-- C7: the dry-run never mutates anything: it either fails with the
SilentError, producing no state change, or resolves with the state it was
given, untouched (and the `undefined` resolution value). -/
theorem dryRun_no_side_effects (st : TaskState) (d : String) :
    run st d true = Except.error (warnDirectoryAlreadyExists d) ∨
    run st d true = Except.ok (st, none) := by
  by_cases h : (existsSync st.fs d && (readdirLength st.fs d != 0)) = true
  · left
    simp [run, runWith, h]
  · right
    simp only [run, runWith, if_true]
    rw [if_neg (by simpa using h)]

end CreateDir

namespace Builder

theorem withIdx_mem_ge (n : Nat) (l : List Addon) :
    ∀ p ∈ withIdx n l, n ≤ p.1 := by
  induction l generalizing n with
  | nil =>
      intro p hp
      simp [withIdx] at hp
  | cons a rest ih =>
      intro p hp
      simp only [withIdx] at hp
      rcases List.mem_cons.mp hp with rfl | hp2
      · exact Nat.le_refl n
      · exact Nat.le_of_succ_le (ih (n + 1) p hp2)

theorem withIdx_mem_snd (n : Nat) (l : List Addon) :
    ∀ p ∈ withIdx n l, p.2 ∈ l := by
  induction l generalizing n with
  | nil =>
      intro p hp
      simp [withIdx] at hp
  | cons a rest ih =>
      intro p hp
      simp only [withIdx] at hp
      rcases List.mem_cons.mp hp with rfl | hp2
      · exact List.mem_cons_self _ _
      · exact List.mem_cons_of_mem _ (ih (n + 1) p hp2)

theorem mem_withIdx_of_mem (l : List Addon) (a : Addon) (ha : a ∈ l) :
    ∀ n : Nat, ∃ i : Nat, (i, a) ∈ withIdx n l := by
  induction l with
  | nil => cases ha
  | cons b rest ih =>
      intro n
      rcases List.mem_cons.mp ha with rfl | ha2
      · exact ⟨n, by simp [withIdx]⟩
      · obtain ⟨i, hi⟩ := ih ha2 (n + 1)
        exact ⟨i, by simp [withIdx, hi]⟩

theorem processHooks_all_ok (get : Addon → Option (Except String Unit))
    (mk : Nat → BuildEvent) (l : List (Nat × Addon))
    (h : ∀ p ∈ l, succeeds (get p.2) = true) :
    processHooks get mk l = (hookEvents get mk l, none) := by
  induction l with
  | nil => rfl
  | cons p rest ih =>
      obtain ⟨i, a⟩ := p
      have ha : succeeds (get a) = true := h (i, a) (List.mem_cons_self _ _)
      have hrest : ∀ q ∈ rest, succeeds (get q.2) = true :=
        fun q hq => h q (List.mem_cons_of_mem _ hq)
      cases hga : get a with
      | none => simp [processHooks, hookEvents, hga, ih hrest]
      | some r =>
          cases r with
          | ok u => simp [processHooks, hookEvents, hga, ih hrest]
          | error e =>
              rw [hga] at ha
              simp [succeeds] at ha

theorem processHooks_events (get : Addon → Option (Except String Unit))
    (mk : Nat → BuildEvent) (l : List (Nat × Addon)) :
    ∀ ev ∈ (processHooks get mk l).1, ∃ i, ev = mk i := by
  induction l with
  | nil =>
      intro ev hev
      simp [processHooks] at hev
  | cons p rest ih =>
      obtain ⟨i, a⟩ := p
      intro ev hev
      cases hga : get a with
      | none =>
          simp only [processHooks, hga] at hev
          exact ih ev hev
      | some r =>
          cases r with
          | ok u =>
              simp only [processHooks, hga] at hev
              rcases List.mem_cons.mp hev with rfl | h2
              · exact ⟨i, rfl⟩
              · exact ih ev h2
          | error e =>
              simp only [processHooks, hga, List.mem_singleton] at hev
              exact ⟨i, hev⟩

theorem processHooks_some_fails (get : Addon → Option (Except String Unit))
    (mk : Nat → BuildEvent) (l : List (Nat × Addon))
    (h : ∃ p ∈ l, succeeds (get p.2) = false) :
    ∃ e, (processHooks get mk l).2 = some e := by
  induction l with
  | nil =>
      rcases h with ⟨p, hp, _⟩
      cases hp
  | cons p rest ih =>
      obtain ⟨i, a⟩ := p
      rcases h with ⟨q, hq, hqf⟩
      rcases List.mem_cons.mp hq with rfl | hq2
      · have hqa : succeeds (get a) = false := hqf
        cases hga : get a with
        | none =>
            rw [hga] at hqa
            simp [succeeds] at hqa
        | some r =>
            cases r with
            | ok u =>
                rw [hga] at hqa
                simp [succeeds] at hqa
            | error e => exact ⟨e, by simp [processHooks, hga]⟩
      · have hrest : ∃ q ∈ rest, succeeds (get q.2) = false := ⟨q, hq2, hqf⟩
        obtain ⟨e, he⟩ := ih hrest
        cases hga : get a with
        | none => exact ⟨e, by simp [processHooks, hga, he]⟩
        | some r =>
            cases r with
            | ok u => exact ⟨e, by simp [processHooks, hga, he]⟩
            | error e2 => exact ⟨e2, by simp [processHooks, hga]⟩

theorem hookEvents_events (get : Addon → Option (Except String Unit))
    (mk : Nat → BuildEvent) (l : List (Nat × Addon)) :
    ∀ ev ∈ hookEvents get mk l, ∃ i, ev = mk i := by
  induction l with
  | nil =>
      intro ev hev
      simp [hookEvents] at hev
  | cons p rest ih =>
      obtain ⟨i, a⟩ := p
      intro ev hev
      by_cases hga : (get a).isSome
      · simp only [hookEvents, hga, if_true] at hev
        rcases List.mem_cons.mp hev with rfl | h2
        · exact ⟨i, rfl⟩
        · exact ih ev h2
      · simp only [hookEvents, hga, if_false, Bool.false_eq_true] at hev
        exact ih ev hev

theorem buildErrorEvents_mem_shape (e : String) (l : List (Nat × Addon)) :
    ∀ ev ∈ buildErrorEvents e l, ∃ p ∈ l, p.2.buildError = true ∧
      ev = BuildEvent.buildError p.1 e := by
  induction l with
  | nil =>
      intro ev hev
      simp [buildErrorEvents] at hev
  | cons p rest ih =>
      obtain ⟨i, a⟩ := p
      intro ev hev
      by_cases hba : a.buildError
      · simp only [buildErrorEvents, hba, if_true] at hev
        rcases List.mem_cons.mp hev with rfl | h2
        · exact ⟨(i, a), List.mem_cons_self _ _, hba, rfl⟩
        · obtain ⟨q, hq, hqb, hqe⟩ := ih ev h2
          exact ⟨q, List.mem_cons_of_mem _ hq, hqb, hqe⟩
      · simp only [buildErrorEvents, hba, if_false, Bool.false_eq_true] at hev
        obtain ⟨q, hq, hqb, hqe⟩ := ih ev hev
        exact ⟨q, List.mem_cons_of_mem _ hq, hqb, hqe⟩

theorem buildErrorEvents_mem (e : String) (l : List (Nat × Addon))
    (i : Nat) (a : Addon) (hmem : (i, a) ∈ l) (hdef : a.buildError = true) :
    BuildEvent.buildError i e ∈ buildErrorEvents e l := by
  induction l with
  | nil => cases hmem
  | cons p rest ih =>
      obtain ⟨j, b⟩ := p
      rcases List.mem_cons.mp hmem with heq | h2
      · obtain ⟨rfl, rfl⟩ := Prod.mk.injEq .. ▸ heq
        simp [buildErrorEvents, hdef]
      · by_cases hba : b.buildError = true
        · simp only [buildErrorEvents]
          rw [if_pos hba]
          exact List.mem_cons_of_mem _ (ih h2)
        · simp only [buildErrorEvents]
          rw [if_neg hba]
          exact ih h2

theorem buildError_count_one (e : String) (l : List Addon) :
    ∀ (n i : Nat) (a : Addon), (i, a) ∈ withIdx n l → a.buildError = true →
      (buildErrorEvents e (withIdx n l)).count (BuildEvent.buildError i e) = 1 := by
  induction l with
  | nil =>
      intro n i a hmem _
      simp [withIdx] at hmem
  | cons b rest ih =>
      intro n i a hmem hdef
      simp only [withIdx] at hmem ⊢
      rcases List.mem_cons.mp hmem with heq | h2
      · obtain ⟨rfl, rfl⟩ := Prod.mk.injEq .. ▸ heq
        simp only [buildErrorEvents]
        rw [if_pos hdef, List.count_cons_self]
        have hzero :
            (buildErrorEvents e (withIdx (i + 1) rest)).count
              (BuildEvent.buildError i e) = 0 := by
          rw [List.count_eq_zero]
          intro hmem2
          obtain ⟨q, hq, _, hqe⟩ := buildErrorEvents_mem_shape e _ _ hmem2
          have hge := withIdx_mem_ge (i + 1) rest q hq
          cases hqe
          omega
        omega
      · have hge := withIdx_mem_ge (n + 1) rest (i, a) h2
        have hne : BuildEvent.buildError i e ≠ BuildEvent.buildError n e := by
          intro hc
          cases hc
          omega
        by_cases hba : b.buildError = true
        · simp only [buildErrorEvents]
          rw [if_pos hba, List.count_cons_of_ne hne]
          exact ih (n + 1) i a h2 hdef
        · simp only [buildErrorEvents]
          rw [if_neg hba]
          exact ih (n + 1) i a h2 hdef

theorem buildSteps_pre_err (cfg : BuilderConfig) (ann : String) (e : String)
    (h : (preHooks cfg).2 = some e) :
    buildSteps cfg ann =
      ((preHooks cfg).1 ++ buildErrorEvents e (withIdx 0 cfg.addons),
        Except.error e) := by
  simp only [buildSteps, h]

theorem buildSteps_engine_err (cfg : BuilderConfig) (ann : String) (e : String)
    (hpre : (preHooks cfg).2 = none)
    (heng : cfg.engineBuild = Except.error e) :
    buildSteps cfg ann =
      ((preHooks cfg).1 ++ [BuildEvent.engineBuild] ++
          buildErrorEvents e (withIdx 0 cfg.addons),
        Except.error e) := by
  simp only [buildSteps, hpre, heng]

theorem buildSteps_post_err (cfg : BuilderConfig) (ann : String)
    (res e : String) (hpre : (preHooks cfg).2 = none)
    (heng : cfg.engineBuild = Except.ok res)
    (hpost : (postHooks cfg res).2 = some e) :
    buildSteps cfg ann =
      ((preHooks cfg).1 ++ [BuildEvent.engineBuild] ++ (postHooks cfg res).1 ++
          buildErrorEvents e (withIdx 0 cfg.addons),
        Except.error e) := by
  simp only [buildSteps, hpre, heng, hpost]

theorem buildSteps_process_err (cfg : BuilderConfig) (ann : String)
    (res e : String) (hpre : (preHooks cfg).2 = none)
    (heng : cfg.engineBuild = Except.ok res)
    (hpost : (postHooks cfg res).2 = none)
    (hproc : cfg.process res = Except.error e) :
    buildSteps cfg ann =
      ((preHooks cfg).1 ++ [BuildEvent.engineBuild] ++ (postHooks cfg res).1 ++
          [BuildEvent.processResult res] ++
          buildErrorEvents e (withIdx 0 cfg.addons),
        Except.error e) := by
  simp only [buildSteps, hpre, heng, hpost, hproc]

theorem buildSteps_out_err (cfg : BuilderConfig) (ann : String)
    (res res2 e : String) (hpre : (preHooks cfg).2 = none)
    (heng : cfg.engineBuild = Except.ok res)
    (hpost : (postHooks cfg res).2 = none)
    (hproc : cfg.process res = Except.ok res2)
    (hout : (outHooks cfg res2).2 = some e) :
    buildSteps cfg ann =
      ((preHooks cfg).1 ++ [BuildEvent.engineBuild] ++ (postHooks cfg res).1 ++
          [BuildEvent.processResult res] ++ (outHooks cfg res2).1 ++
          buildErrorEvents e (withIdx 0 cfg.addons),
        Except.error e) := by
  simp only [buildSteps, hpre, heng, hpost, hproc, hout]

theorem buildSteps_success (cfg : BuilderConfig) (ann : String)
    (res res2 : String) (hpre : (preHooks cfg).2 = none)
    (heng : cfg.engineBuild = Except.ok res)
    (hpost : (postHooks cfg res).2 = none)
    (hproc : cfg.process res = Except.ok res2)
    (hout : (outHooks cfg res2).2 = none) :
    buildSteps cfg ann =
      ((preHooks cfg).1 ++ [BuildEvent.engineBuild] ++ (postHooks cfg res).1 ++
          [BuildEvent.processResult res] ++ (outHooks cfg res2).1 ++
          [BuildEvent.stopAndReport "build" res2 ann],
        Except.ok res2) := by
  simp only [buildSteps, hpre, heng, hpost, hproc, hout]

theorem preHooks_events (cfg : BuilderConfig) :
    ∀ ev ∈ (preHooks cfg).1, ∃ i, ev = BuildEvent.preBuild i :=
  processHooks_events _ _ _

theorem postHooks_events (cfg : BuilderConfig) (res : String) :
    ∀ ev ∈ (postHooks cfg res).1, ∃ i, ev = BuildEvent.postBuild i res :=
  processHooks_events _ _ _

theorem outHooks_events (cfg : BuilderConfig) (res2 : String) :
    ∀ ev ∈ (outHooks cfg res2).1, ∃ i, ev = BuildEvent.outputReady i res2 :=
  processHooks_events _ _ _

theorem filter_isStop_pre (cfg : BuilderConfig) :
    (preHooks cfg).1.filter isStop = [] := by
  rw [List.filter_eq_nil_iff]
  intro ev hev
  obtain ⟨j, rfl⟩ := preHooks_events cfg ev hev
  simp [isStop]

theorem filter_isStop_post (cfg : BuilderConfig) (res : String) :
    ((postHooks cfg res).1).filter isStop = [] := by
  rw [List.filter_eq_nil_iff]
  intro ev hev
  obtain ⟨j, rfl⟩ := postHooks_events cfg res ev hev
  simp [isStop]

theorem filter_isStop_out (cfg : BuilderConfig) (res2 : String) :
    ((outHooks cfg res2).1).filter isStop = [] := by
  rw [List.filter_eq_nil_iff]
  intro ev hev
  obtain ⟨j, rfl⟩ := outHooks_events cfg res2 ev hev
  simp [isStop]

theorem filter_isStop_bee (e : String) (l : List (Nat × Addon)) :
    (buildErrorEvents e l).filter isStop = [] := by
  rw [List.filter_eq_nil_iff]
  intro ev hev
  obtain ⟨q, _, _, rfl⟩ := buildErrorEvents_mem_shape e l ev hev
  simp [isStop]

/-- C1: when every hook succeeds, a build's observable behaviour is exactly:
instrumentation start, then preBuild on each addon defining it in
registration order, then the engine build, then postBuild per addon, then
the injected result processing, then outputReady per addon; in particular
result processing falls strictly between the postBuild and outputReady
phases, and the build resolves with the processed result. -/
theorem hooks_in_order (cfg : BuilderConfig) (ann : String) (res res2 : String)
    (hAll : ∀ a ∈ cfg.addons, succeeds a.preBuild = true ∧
      succeeds a.postBuild = true ∧ succeeds a.outputReady = true)
    (heng : cfg.engineBuild = Except.ok res)
    (hproc : cfg.process res = Except.ok res2) :
    buildTrace cfg ann =
      (BuildEvent.start "build" ::
        (hookEvents (fun a => a.preBuild) (fun i => BuildEvent.preBuild i)
            (withIdx 0 cfg.addons) ++
          [BuildEvent.engineBuild] ++
          hookEvents (fun a => a.postBuild) (fun i => BuildEvent.postBuild i res)
            (withIdx 0 cfg.addons) ++
          [BuildEvent.processResult res] ++
          hookEvents (fun a => a.outputReady) (fun i => BuildEvent.outputReady i res2)
            (withIdx 0 cfg.addons) ++
          [BuildEvent.stopAndReport "build" res2 ann]),
        Except.ok res2) := by
  have hpre : preHooks cfg =
      (hookEvents (fun a => a.preBuild) (fun i => BuildEvent.preBuild i)
        (withIdx 0 cfg.addons), none) :=
    processHooks_all_ok _ _ _
      (fun p hp => (hAll p.2 (withIdx_mem_snd 0 cfg.addons p hp)).1)
  have hpost : postHooks cfg res =
      (hookEvents (fun a => a.postBuild) (fun i => BuildEvent.postBuild i res)
        (withIdx 0 cfg.addons), none) :=
    processHooks_all_ok _ _ _
      (fun p hp => (hAll p.2 (withIdx_mem_snd 0 cfg.addons p hp)).2.1)
  have hout : outHooks cfg res2 =
      (hookEvents (fun a => a.outputReady) (fun i => BuildEvent.outputReady i res2)
        (withIdx 0 cfg.addons), none) :=
    processHooks_all_ok _ _ _
      (fun p hp => (hAll p.2 (withIdx_mem_snd 0 cfg.addons p hp)).2.2)
  have hred := buildSteps_success cfg ann res res2 (by rw [hpre]) heng
    (by rw [hpost]) hproc (by rw [hout])
  simp only [buildTrace, hred, hpre, hpost, hout]

/-- C1 witness: the two-addon all-success configuration runs every phase in
order and resolves with the (identity-processed) build result. -/
theorem hooks_in_order_witness :
    (∀ a ∈ cfgAll.addons, succeeds a.preBuild = true ∧
      succeeds a.postBuild = true ∧ succeeds a.outputReady = true) ∧
    buildTrace cfgAll "ann0" =
      (BuildEvent.start "build" ::
        (hookEvents (fun a => a.preBuild) (fun i => BuildEvent.preBuild i)
            (withIdx 0 cfgAll.addons) ++
          [BuildEvent.engineBuild] ++
          hookEvents (fun a => a.postBuild)
            (fun i => BuildEvent.postBuild i "build results")
            (withIdx 0 cfgAll.addons) ++
          [BuildEvent.processResult "build results"] ++
          hookEvents (fun a => a.outputReady)
            (fun i => BuildEvent.outputReady i "build results")
            (withIdx 0 cfgAll.addons) ++
          [BuildEvent.stopAndReport "build" "build results" "ann0"]),
        Except.ok "build results") :=
  ⟨by decide,
    hooks_in_order cfgAll "ann0" "build results" "build results" (by decide) rfl rfl⟩

/-- C2: when every preBuild succeeds and the build engine rejects with `e`,
the buildError hook of every addon that defines it is invoked exactly once
with `e`, and the build rejects with the same `e`. -/
theorem engine_failure_reports_buildError (cfg : BuilderConfig) (ann e : String)
    (hPre : ∀ a ∈ cfg.addons, succeeds a.preBuild = true)
    (heng : cfg.engineBuild = Except.error e) :
    (buildTrace cfg ann).2 = Except.error e ∧
    (buildTrace cfg ann).1 =
      BuildEvent.start "build" ::
        (hookEvents (fun a => a.preBuild) (fun i => BuildEvent.preBuild i)
            (withIdx 0 cfg.addons) ++
          [BuildEvent.engineBuild] ++ buildErrorEvents e (withIdx 0 cfg.addons)) ∧
    ∀ i : Nat, ∀ a : Addon, (i, a) ∈ withIdx 0 cfg.addons → a.buildError = true →
      (buildTrace cfg ann).1.count (BuildEvent.buildError i e) = 1 := by
  have hpre : preHooks cfg =
      (hookEvents (fun a => a.preBuild) (fun i => BuildEvent.preBuild i)
        (withIdx 0 cfg.addons), none) :=
    processHooks_all_ok _ _ _
      (fun p hp => hPre p.2 (withIdx_mem_snd 0 cfg.addons p hp))
  have hred := buildSteps_engine_err cfg ann e (by rw [hpre]) heng
  refine ⟨?_, ?_, ?_⟩
  · simp only [buildTrace, hred]
  · simp only [buildTrace, hred, hpre]
  · intro i a hmem hdef
    have c1 : (hookEvents (fun a => a.preBuild) (fun i => BuildEvent.preBuild i)
        (withIdx 0 cfg.addons)).count (BuildEvent.buildError i e) = 0 := by
      rw [List.count_eq_zero]
      intro hc
      obtain ⟨j, hj⟩ := hookEvents_events _ _ _ _ hc
      cases hj
    have c2 : (buildErrorEvents e (withIdx 0 cfg.addons)).count
        (BuildEvent.buildError i e) = 1 :=
      buildError_count_one e cfg.addons 0 i a hmem hdef
    simp only [buildTrace, hred, hpre]
    simp [List.count_cons, List.count_append, c1, c2]

/-- C2 witness: the engine-rejecting configuration reports the error to
both addons once each and rejects with it. -/
theorem engine_failure_reports_buildError_witness :
    (∀ a ∈ cfgEngineFail.addons, succeeds a.preBuild = true) ∧
    ((buildTrace cfgEngineFail "ann0").2 = Except.error "build Error" ∧
      (buildTrace cfgEngineFail "ann0").1 =
        BuildEvent.start "build" ::
          (hookEvents (fun a => a.preBuild) (fun i => BuildEvent.preBuild i)
              (withIdx 0 cfgEngineFail.addons) ++
            [BuildEvent.engineBuild] ++
            buildErrorEvents "build Error" (withIdx 0 cfgEngineFail.addons)) ∧
      ∀ i : Nat, ∀ a : Addon, (i, a) ∈ withIdx 0 cfgEngineFail.addons →
        a.buildError = true →
        (buildTrace cfgEngineFail "ann0").1.count
          (BuildEvent.buildError i "build Error") = 1) :=
  ⟨by decide,
    engine_failure_reports_buildError cfgEngineFail "ann0" "build Error"
      (by decide) rfl⟩

/-- C3: when some addon's preBuild rejects, the engine build, postBuild and
outputReady are never invoked on anything; the build rejects with an error
that is reported to the buildError hook of every addon defining one. -/
theorem preBuild_failure_skips_build (cfg : BuilderConfig) (ann : String)
    (h : ∃ a ∈ cfg.addons, succeeds a.preBuild = false) :
    ∃ e : String,
      (buildTrace cfg ann).2 = Except.error e ∧
      BuildEvent.engineBuild ∉ (buildTrace cfg ann).1 ∧
      (∀ i r, BuildEvent.postBuild i r ∉ (buildTrace cfg ann).1) ∧
      (∀ i r, BuildEvent.outputReady i r ∉ (buildTrace cfg ann).1) ∧
      (∀ i : Nat, ∀ a : Addon, (i, a) ∈ withIdx 0 cfg.addons →
        a.buildError = true →
        BuildEvent.buildError i e ∈ (buildTrace cfg ann).1) := by
  obtain ⟨a0, ha0, ha0f⟩ := h
  obtain ⟨i0, hi0⟩ := mem_withIdx_of_mem cfg.addons a0 ha0 0
  obtain ⟨e, he⟩ := processHooks_some_fails (fun a => a.preBuild)
    (fun i => BuildEvent.preBuild i) (withIdx 0 cfg.addons) ⟨(i0, a0), hi0, ha0f⟩
  have hred := buildSteps_pre_err cfg ann e he
  refine ⟨e, ?_, ?_, ?_, ?_, ?_⟩
  · simp only [buildTrace, hred]
  · simp only [buildTrace, hred]
    intro hc
    rcases List.mem_cons.mp hc with h1 | h1
    · cases h1
    rcases List.mem_append.mp h1 with h2 | h2
    · obtain ⟨j, hj⟩ := preHooks_events cfg _ h2
      cases hj
    · obtain ⟨q, _, _, hqe⟩ := buildErrorEvents_mem_shape e _ _ h2
      cases hqe
  · intro i r
    simp only [buildTrace, hred]
    intro hc
    rcases List.mem_cons.mp hc with h1 | h1
    · cases h1
    rcases List.mem_append.mp h1 with h2 | h2
    · obtain ⟨j, hj⟩ := preHooks_events cfg _ h2
      cases hj
    · obtain ⟨q, _, _, hqe⟩ := buildErrorEvents_mem_shape e _ _ h2
      cases hqe
  · intro i r
    simp only [buildTrace, hred]
    intro hc
    rcases List.mem_cons.mp hc with h1 | h1
    · cases h1
    rcases List.mem_append.mp h1 with h2 | h2
    · obtain ⟨j, hj⟩ := preHooks_events cfg _ h2
      cases hj
    · obtain ⟨q, _, _, hqe⟩ := buildErrorEvents_mem_shape e _ _ h2
      cases hqe
  · intro i a hmem hdef
    simp only [buildTrace, hred]
    exact List.mem_cons_of_mem _
      (List.mem_append.mpr (Or.inr (buildErrorEvents_mem e _ i a hmem hdef)))

/-- C3 witness: with the first addon's preBuild rejecting, the engine,
postBuild and outputReady never run and both buildError hooks are told. -/
theorem preBuild_failure_skips_build_witness :
    (∃ a ∈ cfgPreFail.addons, succeeds a.preBuild = false) ∧
    ∃ e : String,
      (buildTrace cfgPreFail "ann0").2 = Except.error e ∧
      BuildEvent.engineBuild ∉ (buildTrace cfgPreFail "ann0").1 ∧
      (∀ i r, BuildEvent.postBuild i r ∉ (buildTrace cfgPreFail "ann0").1) ∧
      (∀ i r, BuildEvent.outputReady i r ∉ (buildTrace cfgPreFail "ann0").1) ∧
      (∀ i : Nat, ∀ a : Addon, (i, a) ∈ withIdx 0 cfgPreFail.addons →
        a.buildError = true →
        BuildEvent.buildError i e ∈ (buildTrace cfgPreFail "ann0").1) :=
  ⟨⟨badPreAddon, by decide, by decide⟩,
    preBuild_failure_skips_build cfgPreFail "ann0"
      ⟨badPreAddon, by decide, by decide⟩⟩

theorem buildSteps_no_start (cfg : BuilderConfig) (ann : String) :
    ∀ ev ∈ (buildSteps cfg ann).1, isStart ev = false := by
  intro ev hev
  cases hpre : (preHooks cfg).2 with
  | some e =>
      simp only [buildSteps_pre_err cfg ann e hpre] at hev
      rcases List.mem_append.mp hev with h2 | h2
      · obtain ⟨j, rfl⟩ := preHooks_events cfg _ h2
        rfl
      · obtain ⟨q, _, _, rfl⟩ := buildErrorEvents_mem_shape e _ _ h2
        rfl
  | none =>
      cases heng : cfg.engineBuild with
      | error e =>
          simp only [buildSteps_engine_err cfg ann e hpre heng,
            List.mem_append, List.mem_singleton] at hev
          rcases hev with (h2 | rfl) | h2
          · obtain ⟨j, rfl⟩ := preHooks_events cfg _ h2
            rfl
          · rfl
          · obtain ⟨q, _, _, rfl⟩ := buildErrorEvents_mem_shape e _ _ h2
            rfl
      | ok res =>
          cases hpost : (postHooks cfg res).2 with
          | some e =>
              simp only [buildSteps_post_err cfg ann res e hpre heng hpost,
                List.mem_append, List.mem_singleton] at hev
              rcases hev with ((h2 | rfl) | h2) | h2
              · obtain ⟨j, rfl⟩ := preHooks_events cfg _ h2
                rfl
              · rfl
              · obtain ⟨j, rfl⟩ := postHooks_events cfg res _ h2
                rfl
              · obtain ⟨q, _, _, rfl⟩ := buildErrorEvents_mem_shape e _ _ h2
                rfl
          | none =>
              cases hproc : cfg.process res with
              | error e =>
                  simp only [buildSteps_process_err cfg ann res e hpre heng hpost hproc,
                    List.mem_append, List.mem_singleton] at hev
                  rcases hev with (((h2 | rfl) | h2) | rfl) | h2
                  · obtain ⟨j, rfl⟩ := preHooks_events cfg _ h2
                    rfl
                  · rfl
                  · obtain ⟨j, rfl⟩ := postHooks_events cfg res _ h2
                    rfl
                  · rfl
                  · obtain ⟨q, _, _, rfl⟩ := buildErrorEvents_mem_shape e _ _ h2
                    rfl
              | ok res2 =>
                  cases hout : (outHooks cfg res2).2 with
                  | some e =>
                      simp only [buildSteps_out_err cfg ann res res2 e hpre heng
                          hpost hproc hout,
                        List.mem_append, List.mem_singleton] at hev
                      rcases hev with ((((h2 | rfl) | h2) | rfl) | h2) | h2
                      · obtain ⟨j, rfl⟩ := preHooks_events cfg _ h2
                        rfl
                      · rfl
                      · obtain ⟨j, rfl⟩ := postHooks_events cfg res _ h2
                        rfl
                      · rfl
                      · obtain ⟨j, rfl⟩ := outHooks_events cfg res2 _ h2
                        rfl
                      · obtain ⟨q, _, _, rfl⟩ := buildErrorEvents_mem_shape e _ _ h2
                        rfl
                  | none =>
                      simp only [buildSteps_success cfg ann res res2 hpre heng
                          hpost hproc hout,
                        List.mem_append, List.mem_singleton] at hev
                      rcases hev with ((((h2 | rfl) | h2) | rfl) | h2) | rfl
                      · obtain ⟨j, rfl⟩ := preHooks_events cfg _ h2
                        rfl
                      · rfl
                      · obtain ⟨j, rfl⟩ := postHooks_events cfg res _ h2
                        rfl
                      · rfl
                      · obtain ⟨j, rfl⟩ := outHooks_events cfg res2 _ h2
                        rfl
                      · rfl

/-- C8: on every build invocation, instrumentation start is recorded
exactly once, labelled "build", as the very first event of the build:
the trace begins with it and no start event occurs anywhere later. -/
theorem instrumentation_start_once (cfg : BuilderConfig) (ann : String) :
    (buildTrace cfg ann).1.head? = some (BuildEvent.start "build") ∧
    (buildTrace cfg ann).1.filter isStart = [BuildEvent.start "build"] := by
  constructor
  · rfl
  · have hnil : (buildSteps cfg ann).1.filter isStart = [] := by
      rw [List.filter_eq_nil_iff]
      intro ev hev
      simp [buildSteps_no_start cfg ann ev hev]
    simp only [buildTrace, List.filter_cons]
    simp [isStart, hnil]

/-- C9: instrumentation stop is recorded exactly once, with the label
"build", the final build result and the annotation, whenever the build
resolves; and never recorded at all when the build rejects at any step. -/
theorem stop_only_on_success (cfg : BuilderConfig) (ann : String) :
    (∃ r, (buildTrace cfg ann).2 = Except.ok r ∧
      (buildTrace cfg ann).1.filter isStop =
        [BuildEvent.stopAndReport "build" r ann]) ∨
    (∃ e, (buildTrace cfg ann).2 = Except.error e ∧
      (buildTrace cfg ann).1.filter isStop = []) := by
  cases hpre : (preHooks cfg).2 with
  | some e =>
      right
      refine ⟨e, ?_, ?_⟩
      · simp only [buildTrace, buildSteps_pre_err cfg ann e hpre]
      · simp [buildTrace, buildSteps_pre_err cfg ann e hpre,
          List.filter_cons, List.filter_append, filter_isStop_pre,
          filter_isStop_bee, isStop]
  | none =>
      cases heng : cfg.engineBuild with
      | error e =>
          right
          refine ⟨e, ?_, ?_⟩
          · simp only [buildTrace, buildSteps_engine_err cfg ann e hpre heng]
          · simp [buildTrace, buildSteps_engine_err cfg ann e hpre heng,
              List.filter_cons, List.filter_append, filter_isStop_pre,
              filter_isStop_bee, isStop]
      | ok res =>
          cases hpost : (postHooks cfg res).2 with
          | some e =>
              right
              refine ⟨e, ?_, ?_⟩
              · simp only [buildTrace, buildSteps_post_err cfg ann res e hpre heng hpost]
              · simp [buildTrace, buildSteps_post_err cfg ann res e hpre heng hpost,
                  List.filter_cons, List.filter_append, filter_isStop_pre,
                  filter_isStop_post, filter_isStop_bee, isStop]
          | none =>
              cases hproc : cfg.process res with
              | error e =>
                  right
                  refine ⟨e, ?_, ?_⟩
                  · simp only [buildTrace,
                      buildSteps_process_err cfg ann res e hpre heng hpost hproc]
                  · simp [buildTrace,
                      buildSteps_process_err cfg ann res e hpre heng hpost hproc,
                      List.filter_cons, List.filter_append, filter_isStop_pre,
                      filter_isStop_post, filter_isStop_bee, isStop]
              | ok res2 =>
                  cases hout : (outHooks cfg res2).2 with
                  | some e =>
                      right
                      refine ⟨e, ?_, ?_⟩
                      · simp only [buildTrace,
                          buildSteps_out_err cfg ann res res2 e hpre heng hpost
                            hproc hout]
                      · simp [buildTrace,
                          buildSteps_out_err cfg ann res res2 e hpre heng hpost
                            hproc hout,
                          List.filter_cons, List.filter_append, filter_isStop_pre,
                          filter_isStop_post, filter_isStop_out,
                          filter_isStop_bee, isStop]
                  | none =>
                      left
                      refine ⟨res2, ?_, ?_⟩
                      · simp only [buildTrace,
                          buildSteps_success cfg ann res res2 hpre heng hpost
                            hproc hout]
                      · simp [buildTrace,
                          buildSteps_success cfg ann res res2 hpre heng hpost
                            hproc hout,
                          List.filter_cons, List.filter_append, filter_isStop_pre,
                          filter_isStop_post, filter_isStop_out, isStop]

end Builder
